import Mathlib

/-!
Verification development for the plugin management subsystem of the codex
repository (src/codex-rs: core/src/plugins/{installer,manifest,policy,
registry,validator}.rs and cli/src/plugin_cmd.rs).

The Rust code is shallowly embedded: filesystem paths become lists of
components with an absolute-path flag, the filesystem itself becomes an
explicit model record (existence, canonicalization, directory walks),
fallible Rust functions returning anyhow::Result become Except, and the
serde_json representation of the registry becomes an explicit Json tree
with encoders and decoders mirroring the derive attributes on the Rust
types.
-/

/-- Model of a filesystem path: an absolute-path flag plus the list of
path components, mirroring std::path::Path component iteration. A
component equal to ".." plays the role of Component::ParentDir. -/
structure RPath where
  abs : Bool
  comps : List String
deriving DecidableEq

/-- Model of Path::join: an absolute right operand replaces the left one. -/
def RPath.join (p q : RPath) : RPath :=
  if q.abs then q else { abs := p.abs, comps := p.comps ++ q.comps }

/-- Model of Path::starts_with: component-wise prefix test. -/
def RPath.startsWith (p base : RPath) : Bool :=
  p.abs == base.abs && base.comps.isPrefixOf p.comps

/-- Whitespace test matching the characters Rust str::trim removes in the
ASCII range. -/
def rustIsWhitespace (c : Char) : Bool :=
  c == ' ' || c == '\t' || c == '\n' || c == '\r'

/-- Model of Rust str::trim over the underlying character list. -/
def rustTrim (s : String) : String :=
  String.mk (((s.data.dropWhile rustIsWhitespace).reverse.dropWhile rustIsWhitespace).reverse)

/-- Separator join used to render paths for error messages. -/
def joinSep (sep : String) : List String → String
  | [] => ""
  | [x] => x
  | x :: rest => x ++ sep ++ joinSep sep rest

/-- Model of Path::display used in error messages. -/
def RPath.display (p : RPath) : String :=
  (if p.abs then "/" else "") ++ joinSep "/" p.comps

/-- Model of the ParentDir test used by the validator and the resolver:
path.components().any(|c| matches!(c, Component::ParentDir)). -/
def RPath.hasParentDir (p : RPath) : Bool :=
  p.comps.contains ".."

/-- Shorthand for a relative path built from components. -/
def relPath (cs : List String) : RPath :=
  { abs := false, comps := cs }

/-- Entry produced by a recursive directory walk (walkdir::WalkDir with
follow_links(false)), as observed by the validator. -/
structure WalkEntry where
  path : RPath
  fileName : String
  isDir : Bool
  isSymlink : Bool
deriving DecidableEq

/-- Model of the filesystem as seen by the plugin subsystem: existence,
dunce::canonicalize (None models an Err), directory and file tests, and
the recursive walk rooted at a path. -/
structure FsModel where
  ex : RPath → Bool
  canon : RPath → Option RPath
  isDir : RPath → Bool
  isFile : RPath → Bool
  walk : RPath → List WalkEntry

/-- PluginComponent from core/src/plugins/manifest.rs. -/
inductive PluginComponent where
  | Commands
  | Skills
  | Rules
  | Contexts
  | Hooks
  | Agents
  | McpConfigs
deriving DecidableEq

/-- PluginComponent::default_dir_name from core/src/plugins/manifest.rs. -/
def PluginComponent.default_dir_name : PluginComponent → String
  | .Commands => "commands"
  | .Skills => "skills"
  | .Rules => "rules"
  | .Contexts => "contexts"
  | .Hooks => "hooks"
  | .Agents => "agents"
  | .McpConfigs => "mcp-configs"

/-- PluginAuthor from core/src/plugins/manifest.rs. -/
structure PluginAuthor where
  name : String
  email : Option String := none
  url : Option String := none
deriving DecidableEq

/-- PluginManifest from core/src/plugins/manifest.rs. Component hints are
optional relative paths. -/
structure PluginManifest where
  name : String
  version : Option String := none
  description : Option String := none
  author : Option PluginAuthor := none
  homepage : Option String := none
  repository : Option String := none
  license : Option String := none
  keywords : List String := []
  commands : Option RPath := none
  skills : Option RPath := none
  rules : Option RPath := none
  contexts : Option RPath := none
  hooks : Option RPath := none
  agents : Option RPath := none
  mcp_configs : Option RPath := none
deriving DecidableEq

/-- PluginManifest::component_path from core/src/plugins/manifest.rs. -/
def PluginManifest.component_path (m : PluginManifest) : PluginComponent → Option RPath
  | .Commands => m.commands
  | .Skills => m.skills
  | .Rules => m.rules
  | .Contexts => m.contexts
  | .Hooks => m.hooks
  | .Agents => m.agents
  | .McpConfigs => m.mcp_configs

/-- PluginManifest::resolve_component_dir from core/src/plugins/manifest.rs.
A declared manifest path wins; it must be relative and free of ParentDir
segments, else None is returned with no fallback. Without a declaration the
conventional directory name is used when it exists. The chosen candidate
must exist and canonicalize to a descendant of the canonical root. -/
def resolve_component_dir (fs : FsModel) (m : PluginManifest) (root : RPath)
    (c : PluginComponent) : Option RPath :=
  match
    (match m.component_path c with
     | some path =>
       if path.abs || path.hasParentDir then none else some path
     | none =>
       if fs.ex (root.join (relPath [c.default_dir_name])) then
         some (relPath [c.default_dir_name])
       else none)
  with
  | none => none
  | some rel =>
    if !fs.ex (root.join rel) then none
    else
      match fs.canon root, fs.canon (root.join rel) with
      | some croot, some ccand =>
        if ccand.startsWith croot then some ccand else none
      | some _, none => none
      | none, _ => none

/-- PluginComplianceReport from core/src/plugins/registry.rs. -/
structure PluginComplianceReport where
  errors : List String
  warnings : List String
  hooks_detected : Bool
  scripts_detected : Bool
deriving DecidableEq

/-- PluginComplianceReport::empty from core/src/plugins/registry.rs. -/
def PluginComplianceReport.empty : PluginComplianceReport :=
  { errors := [], warnings := [], hooks_detected := false, scripts_detected := false }

/-- Name validity test from PluginValidator::validate in
core/src/plugins/validator.rs: empty after trim, or containing a path
separator, is invalid. -/
def invalid_name (name : String) : Bool :=
  (rustTrim name).data.isEmpty || name.data.contains '/' || name.data.contains '\\'

/-- Per-component path check from the loop inside PluginValidator::validate
(core/src/plugins/validator.rs lines 35-88). The returned list holds the
errors pushed for this component; an Except.error models the question-mark
propagation of a dunce::canonicalize failure. -/
def component_check (fs : FsModel) (croot : RPath) (m : PluginManifest)
    (c : PluginComponent) : Except String (List String) :=
  match m.component_path c with
  | none =>
    if fs.ex (croot.join (relPath [c.default_dir_name])) then
      match fs.canon (croot.join (relPath [c.default_dir_name])) with
      | none => .error "canonicalize failed"
      | some cc =>
        if !cc.startsWith croot then
          .ok ["path escapes plugin root: " ++ (croot.join (relPath [c.default_dir_name])).display]
        else .ok []
    else .ok []
  | some path =>
    if path.abs then .ok ["path is absolute: " ++ path.display]
    else if path.hasParentDir then .ok ["path escapes plugin root: " ++ path.display]
    else if !fs.ex (croot.join path) then .ok ["component path missing: " ++ path.display]
    else
      match fs.canon (croot.join path) with
      | none => .error "canonicalize failed"
      | some cc =>
        if !cc.startsWith croot then .ok ["path escapes plugin root: " ++ path.display]
        else .ok []

/-- Order of the component loop in PluginValidator::validate. -/
def componentsOrder : List PluginComponent :=
  [.Commands, .Skills, .Rules, .Contexts, .Hooks, .Agents, .McpConfigs]

/-- Sequential accumulation of the component-loop errors; a canonicalize
failure aborts the whole validation as the question mark does in Rust. -/
def collect_component_errors (fs : FsModel) (croot : RPath) (m : PluginManifest) :
    List PluginComponent → Except String (List String)
  | [] => .ok []
  | c :: rest =>
    match component_check fs croot m c with
    | .error e => .error e
    | .ok errs =>
      match collect_component_errors fs croot m rest with
      | .error e => .error e
      | .ok more => .ok (errs ++ more)

/-- Hook detection from PluginValidator::validate: the resolved hooks
component directory, or the conventional hooks directory when it exists,
detected when present on disk. -/
def hooks_detected_check (fs : FsModel) (m : PluginManifest) (croot : RPath) : Bool :=
  match
    (match resolve_component_dir fs m croot .Hooks with
     | some p => some p
     | none =>
       if fs.ex (croot.join (relPath ["hooks"])) then
         some (croot.join (relPath ["hooks"]))
       else none)
  with
  | some p => fs.ex p
  | none => false

/-- Scripts detection from PluginValidator::validate: any directory named
exactly scripts anywhere under the walked root. -/
def scripts_detected_check (fs : FsModel) (croot : RPath) : Bool :=
  (fs.walk croot).any (fun w => w.isDir && w.fileName == "scripts")

/-- Warning selection at the end of PluginValidator::validate. -/
def validator_warnings (fs : FsModel) (m : PluginManifest) (croot : RPath) : List String :=
  if hooks_detected_check fs m croot || scripts_detected_check fs croot then
    ["hooks/scripts detected; policy required"]
  else if m.license.isNone then
    ["license missing; verify compliance"]
  else []

/-- PluginValidator::validate from core/src/plugins/validator.rs. -/
def validate (fs : FsModel) (root : RPath) (m : PluginManifest) :
    Except String PluginComplianceReport :=
  match fs.canon root with
  | none => .error "canonicalize failed"
  | some croot =>
    if !fs.isDir croot then
      .ok { errors := ["plugin root is not a directory"], warnings := [],
            hooks_detected := false, scripts_detected := false }
    else
      match collect_component_errors fs croot m componentsOrder with
      | .error e => .error e
      | .ok compErrs =>
        let nameErrs := if invalid_name m.name then ["plugin name is invalid"] else []
        let symErrs :=
          ((fs.walk croot).filter (fun w => w.isSymlink)).map
            (fun w => "symlink not allowed: " ++ w.path.display)
        .ok { errors := nameErrs ++ compErrs ++ symErrs,
              warnings := validator_warnings fs m croot,
              hooks_detected := hooks_detected_check fs m croot,
              scripts_detected := scripts_detected_check fs croot }

/-- PluginScope from core/src/plugins/registry.rs. -/
inductive PluginScope where
  | User
  | Project
deriving DecidableEq

/-- PluginSource from core/src/plugins/registry.rs. -/
inductive PluginSource where
  | LocalPath (path : String)
  | Url (url : String)
  | GitHub (repo : String) (reference : Option String)
  | Marketplace (name : String) (src : String)
deriving DecidableEq

/-- PluginPolicy from core/src/plugins/policy.rs. The derived Default has
both capabilities false. -/
structure PluginPolicy where
  allow_hooks : Bool
  allow_scripts : Bool
deriving DecidableEq

/-- Default value of PluginPolicy (derive(Default) in Rust). -/
def PluginPolicy.default : PluginPolicy :=
  { allow_hooks := false, allow_scripts := false }

/-- PluginRuntimeSpec from core/src/plugins/registry.rs. -/
structure PluginRuntimeSpec where
  kind : String
  entrypoint : String
deriving DecidableEq

/-- PluginRegistryEntry from core/src/plugins/registry.rs. -/
structure PluginRegistryEntry where
  name : String
  enabled : Bool
  scope : PluginScope
  source : PluginSource
  policy : PluginPolicy
  compliance : PluginComplianceReport
  runtime : Option PluginRuntimeSpec
deriving DecidableEq

/-- PluginRegistry from core/src/plugins/registry.rs. -/
structure PluginRegistry where
  version : Nat
  plugins : List PluginRegistryEntry
deriving DecidableEq

/-- Default registry value (version REGISTRY_VERSION = 1, no plugins). -/
def PluginRegistry.defaultRegistry : PluginRegistry :=
  { version := 1, plugins := [] }

/-- PluginRegistry::find_entry: first match by exact name. -/
def PluginRegistry.find_entry (r : PluginRegistry) (name : String) :
    Option PluginRegistryEntry :=
  r.plugins.find? (fun e => e.name == name)

/-- Model of the serde_json value tree. Numbers are restricted to the
naturals, which covers the only numeric field of the registry (u32
version). -/
inductive Json where
  | null : Json
  | bool : Bool → Json
  | num : Nat → Json
  | str : String → Json
  | arr : List Json → Json
  | obj : List (String × Json) → Json

/-- Field lookup in a serde_json object, first occurrence wins. -/
def jsonField (fields : List (String × Json)) (key : String) : Option Json :=
  match fields with
  | [] => none
  | (k, v) :: rest => if k == key then some v else jsonField rest key

/-- Required struct field: missing means a deserialize error. -/
def reqField (fields : List (String × Json)) (key : String)
    (dec : Json → Except String α) : Except String α :=
  match jsonField fields key with
  | none => .error ("missing field " ++ key)
  | some v => dec v

/-- Struct field carrying a serde default attribute: a missing field
yields the default value. -/
def optFieldD (fields : List (String × Json)) (key : String)
    (dec : Json → Except String α) (d : α) : Except String α :=
  match jsonField fields key with
  | none => .ok d
  | some v => dec v

/-- Decoder for JSON strings. -/
def decodeString : Json → Except String String
  | .str s => .ok s
  | _ => .error "expected string"

/-- Decoder for JSON booleans. -/
def decodeBool : Json → Except String Bool
  | .bool b => .ok b
  | _ => .error "expected bool"

/-- Decoder for u32 numbers: out-of-range values are rejected as serde
does for u32 targets. -/
def decodeU32 : Json → Except String Nat
  | .num n => if n < 4294967296 then .ok n else .error "number out of range"
  | _ => .error "expected number"

/-- Decoder for Vec of String. -/
def decodeStringList : Json → Except String (List String)
  | .arr xs => xs.mapM decodeString
  | _ => .error "expected array"

/-- Encoder for Option of String (serde writes null for None). -/
def encodeOptString : Option String → Json
  | none => .null
  | some s => .str s

/-- Decoder for Option of String. -/
def decodeOptString : Json → Except String (Option String)
  | .null => .ok none
  | .str s => .ok (some s)
  | _ => .error "expected string or null"

/-- Encoder for PluginScope under rename_all snake_case. -/
def encodeScope : PluginScope → Json
  | .User => .str "user"
  | .Project => .str "project"

/-- Decoder for PluginScope. -/
def decodeScope (j : Json) : Except String PluginScope :=
  match j with
  | .str s =>
    if s == "user" then .ok .User
    else if s == "project" then .ok .Project
    else .error "invalid scope"
  | _ => .error "expected string"

/-- Encoder for PluginSource: externally tagged enum whose variant names
follow rename_all snake_case. -/
def encodeSource : PluginSource → Json
  | .LocalPath p => .obj [("local_path", .str p)]
  | .Url u => .obj [("url", .str u)]
  | .GitHub repo reference =>
    .obj [("git_hub", .obj [("repo", .str repo), ("reference", encodeOptString reference)])]
  | .Marketplace name src =>
    .obj [("marketplace", .obj [("name", .str name), ("source", .str src)])]

/-- Decoder for PluginSource. -/
def decodeSource (j : Json) : Except String PluginSource :=
  match j with
  | .obj [(tag, payload)] =>
    if tag == "local_path" then
      match decodeString payload with
      | .error e => .error e
      | .ok p => .ok (.LocalPath p)
    else if tag == "url" then
      match decodeString payload with
      | .error e => .error e
      | .ok u => .ok (.Url u)
    else if tag == "git_hub" then
      match payload with
      | .obj fields =>
        match reqField fields "repo" decodeString with
        | .error e => .error e
        | .ok repo =>
          match reqField fields "reference" decodeOptString with
          | .error e => .error e
          | .ok reference => .ok (.GitHub repo reference)
      | _ => .error "expected object"
    else if tag == "marketplace" then
      match payload with
      | .obj fields =>
        match reqField fields "name" decodeString with
        | .error e => .error e
        | .ok name =>
          match reqField fields "source" decodeString with
          | .error e => .error e
          | .ok src => .ok (.Marketplace name src)
      | _ => .error "expected object"
    else .error "unknown source variant"
  | _ => .error "expected externally tagged enum"

/-- Encoder for PluginPolicy. -/
def encodePolicy (p : PluginPolicy) : Json :=
  .obj [("allow_hooks", .bool p.allow_hooks), ("allow_scripts", .bool p.allow_scripts)]

/-- Decoder for PluginPolicy; both fields carry serde default. -/
def decodePolicy (j : Json) : Except String PluginPolicy :=
  match j with
  | .obj fields =>
    match optFieldD fields "allow_hooks" decodeBool false with
    | .error e => .error e
    | .ok ah =>
      match optFieldD fields "allow_scripts" decodeBool false with
      | .error e => .error e
      | .ok as_ => .ok { allow_hooks := ah, allow_scripts := as_ }
  | _ => .error "expected object"

/-- Encoder for PluginComplianceReport. -/
def encodeCompliance (c : PluginComplianceReport) : Json :=
  .obj [("errors", .arr (c.errors.map Json.str)),
        ("warnings", .arr (c.warnings.map Json.str)),
        ("hooks_detected", .bool c.hooks_detected),
        ("scripts_detected", .bool c.scripts_detected)]

/-- Decoder for PluginComplianceReport; every field carries serde default. -/
def decodeCompliance (j : Json) : Except String PluginComplianceReport :=
  match j with
  | .obj fields =>
    match optFieldD fields "errors" decodeStringList [] with
    | .error e => .error e
    | .ok errs =>
      match optFieldD fields "warnings" decodeStringList [] with
      | .error e => .error e
      | .ok warns =>
        match optFieldD fields "hooks_detected" decodeBool false with
        | .error e => .error e
        | .ok hd =>
          match optFieldD fields "scripts_detected" decodeBool false with
          | .error e => .error e
          | .ok sd =>
            .ok { errors := errs, warnings := warns,
                  hooks_detected := hd, scripts_detected := sd }
  | _ => .error "expected object"

/-- Encoder for PluginRuntimeSpec. -/
def encodeRuntime (r : PluginRuntimeSpec) : Json :=
  .obj [("kind", .str r.kind), ("entrypoint", .str r.entrypoint)]

/-- Decoder for PluginRuntimeSpec. -/
def decodeRuntime (j : Json) : Except String PluginRuntimeSpec :=
  match j with
  | .obj fields =>
    match reqField fields "kind" decodeString with
    | .error e => .error e
    | .ok k =>
      match reqField fields "entrypoint" decodeString with
      | .error e => .error e
      | .ok ep => .ok { kind := k, entrypoint := ep }
  | _ => .error "expected object"

/-- Decoder for the optional runtime field (Option with serde default:
null decodes to None). -/
def decodeOptRuntime (j : Json) : Except String (Option PluginRuntimeSpec) :=
  match j with
  | .null => .ok none
  | other =>
    match decodeRuntime other with
    | .error e => .error e
    | .ok r => .ok (some r)

/-- Encoder for PluginRegistryEntry; runtime is omitted when None
(skip_serializing_if Option::is_none). -/
def encodeEntry (e : PluginRegistryEntry) : Json :=
  .obj ([("name", .str e.name),
         ("enabled", .bool e.enabled),
         ("scope", encodeScope e.scope),
         ("source", encodeSource e.source),
         ("policy", encodePolicy e.policy),
         ("compliance", encodeCompliance e.compliance)] ++
        (match e.runtime with
         | none => []
         | some r => [("runtime", encodeRuntime r)]))

/-- Decoder for PluginRegistryEntry. -/
def decodeEntry (j : Json) : Except String PluginRegistryEntry :=
  match j with
  | .obj fields =>
    match reqField fields "name" decodeString with
    | .error e => .error e
    | .ok name =>
      match reqField fields "enabled" decodeBool with
      | .error e => .error e
      | .ok enabled =>
        match reqField fields "scope" decodeScope with
        | .error e => .error e
        | .ok scope =>
          match reqField fields "source" decodeSource with
          | .error e => .error e
          | .ok source =>
            match reqField fields "policy" decodePolicy with
            | .error e => .error e
            | .ok policy =>
              match reqField fields "compliance" decodeCompliance with
              | .error e => .error e
              | .ok compliance =>
                match optFieldD fields "runtime" decodeOptRuntime none with
                | .error e => .error e
                | .ok runtime =>
                  .ok { name := name, enabled := enabled, scope := scope,
                        source := source, policy := policy,
                        compliance := compliance, runtime := runtime }
  | _ => .error "expected object"

/-- Decoder for the plugins array. -/
def decodeEntryList : Json → Except String (List PluginRegistryEntry)
  | .arr xs => xs.mapM decodeEntry
  | _ => .error "expected array"

/-- Encoder for PluginRegistry, mirroring serde_json::to_string_pretty
modulo text rendering. -/
def encodeRegistry (r : PluginRegistry) : Json :=
  .obj [("version", .num r.version), ("plugins", .arr (r.plugins.map encodeEntry))]

/-- Decoder for PluginRegistry: version has serde default
REGISTRY_VERSION = 1 and plugins defaults to the empty list. -/
def decodeRegistry (j : Json) : Except String PluginRegistry :=
  match j with
  | .obj fields =>
    match optFieldD fields "version" decodeU32 1 with
    | .error e => .error e
    | .ok version =>
      match optFieldD fields "plugins" decodeEntryList [] with
      | .error e => .error e
      | .ok plugins => .ok { version := version, plugins := plugins }
  | _ => .error "expected object"

/-- PluginRegistry::load from core/src/plugins/registry.rs over the disk
model: an absent file yields the default registry, a present file is
deserialized and malformed data fails. -/
def registryLoad : Option Json → Except String PluginRegistry
  | none => .ok PluginRegistry.defaultRegistry
  | some j => decodeRegistry j

/-- State of the world touched by one install: the registry file of the
store (None models an absent installed_plugins.json), whether the
destination directory store.plugin_dir(manifest.name) exists, and whether
the store root directory exists. -/
structure SysState where
  registryFile : Option Json
  destExists : Bool
  storeRootExists : Bool

/-- InstallOutcome from core/src/plugins/installer.rs, restricted to the
fields the registry can reflect (the returned root path is
store.plugin_dir(entry.name) by construction). -/
structure InstallOutcomeM where
  entry : PluginRegistryEntry
  manifest : PluginManifest

/-- Boolean success test for an Except result. -/
def exceptOk : Except ε α → Bool
  | .ok _ => true
  | .error _ => false

/-- Model of install_from_root from core/src/plugins/installer.rs
(lines 287-343). The manifest load result, the source filesystem and the
success of the two IO steps (copy_plugin_dir and PluginRegistry::save) are
parameters; the function threads the SysState exactly along the Rust
control flow. The InstallCleanup guard is armed before copy_plugin_dir and
disarmed right after it, before the registry save: a copy failure drops
the guard armed, which removes dest_root, while a save failure happens
with the guard already disarmed. -/
def install_from_root (scope : PluginScope) (src : PluginSource)
    (manifestLoad : Except String PluginManifest)
    (srcFs : FsModel) (srcRoot : RPath)
    (copyOk : Bool) (saveOk : Bool) (st : SysState) :
    SysState × Except String InstallOutcomeM :=
  match manifestLoad with
  | .error _ => (st, .error "failed to load plugin manifest")
  | .ok manifest =>
    match validate srcFs srcRoot manifest with
    | .error e => (st, .error e)
    | .ok report =>
      if !report.errors.isEmpty then
        (st, .error "plugin validation failed")
      else if st.destExists then
        (st, .error "plugin is already installed")
      else
        match registryLoad st.registryFile with
        | .error _ => (st, .error "registry corrupt")
        | .ok registry =>
          if (registry.find_entry manifest.name).isSome then
            (st, .error "plugin is already registered")
          else if !copyOk then
            ({ registryFile := st.registryFile, destExists := false,
               storeRootExists := true },
             .error "copy failed")
          else
            let entry : PluginRegistryEntry :=
              { name := manifest.name, enabled := true, scope := scope,
                source := src, policy := PluginPolicy.default,
                compliance :=
                  { errors := [], warnings := report.warnings,
                    hooks_detected := report.hooks_detected,
                    scripts_detected := report.scripts_detected },
                runtime := none }
            let registry1 : PluginRegistry :=
              { version := registry.version, plugins := registry.plugins ++ [entry] }
            if !saveOk then
              ({ registryFile := st.registryFile, destExists := true,
                 storeRootExists := true },
               .error "failed to save registry")
            else
              ({ registryFile := some (encodeRegistry registry1), destExists := true,
                 storeRootExists := true },
               .ok { entry := entry, manifest := manifest })

/-- Model of a zip archive entry as seen through the zip crate: the entry
name as components plus an absolute-name flag, the optional unix mode from
the archive metadata, and whether the entry is a directory entry. -/
structure ZipEntry where
  nameComps : List String
  isAbs : Bool
  unixMode : Option Nat
  isDirEntry : Bool
deriving DecidableEq

/-- Depth tracking of the zip crate enclosed_name computation: ParentDir
components pop one level and may never escape the extraction root. -/
def enclosedOk : Nat → List String → Bool
  | _, [] => true
  | depth, c :: rest =>
    if c == ".." then
      match depth with
      | 0 => false
      | d + 1 => enclosedOk d rest
    else if c == "." then enclosedOk depth rest
    else enclosedOk (depth + 1) rest

/-- Modelled from the zip crate (an external dependency of installer.rs):
ZipFile::enclosed_name returns the entry path when it is relative, free of
null bytes, and never traverses above the extraction root; otherwise None. -/
def ZipEntry.enclosed_name (e : ZipEntry) : Option (List String) :=
  if e.isAbs then none
  else if e.nameComps.any (fun c => c.data.contains (Char.ofNat 0)) then none
  else if enclosedOk 0 e.nameComps then some e.nameComps else none

/-- is_zip_symlink from core/src/plugins/installer.rs (lines 397-400):
the unix mode type bits equal the symlink file type 0o120000. -/
def is_zip_symlink (e : ZipEntry) : Bool :=
  match e.unixMode with
  | none => false
  | some mode => (mode &&& 0o170000) == 0o120000

/-- Model of Path::parent on the joined output path: None exactly for an
empty (rootless) path. -/
def pathParent (comps : List String) : Option (List String) :=
  match comps with
  | [] => none
  | _ => some comps.dropLast

/-- safe_extract_zip from core/src/plugins/installer.rs (lines 369-395):
every entry must have an enclosed name and must not be a symlink;
directory entries are created eagerly, regular files require a computable
parent directory. Any violating entry fails the whole extraction. -/
def safe_extract_zip (dest : List String) : List ZipEntry → Except String Unit
  | [] => .ok ()
  | e :: rest =>
    match e.enclosed_name with
    | none => .error "zip entry escapes extraction dir"
    | some rel =>
      if is_zip_symlink e then .error "zip entry is symlink"
      else if e.isDirEntry then safe_extract_zip dest rest
      else
        match pathParent (dest ++ rel) with
        | none => .error "zip entry has no parent dir"
        | some _ => safe_extract_zip dest rest

/-- ResolvedInstallSource from cli/src/plugin_cmd.rs. -/
inductive ResolvedInstallSource where
  | LocalPath (path : String)
  | Url (url : String)
  | GitHub (repo : String) (reference : Option String)
  | Marketplace (index_path : String) (name : String)
deriving DecidableEq

/-- Model of str::strip_prefix. -/
def stripPre (pre s : String) : Option String :=
  if s.take pre.length == pre then some (s.drop pre.length) else none

/-- Model of Rust char-pattern str::split over the underlying character
list: every separator occurrence cuts, and empty segments are kept. -/
def splitOnChar (sep : Char) : List Char → List (List Char)
  | [] => [[]]
  | c :: rest =>
    match splitOnChar sep rest with
    | [] => if c == sep then [[], []] else [[c]]
    | h :: t => if c == sep then [] :: h :: t else (c :: h) :: t

/-- Rust str::split with a char pattern, lifted to String. -/
def rustSplit (sep : Char) (s : String) : List String :=
  (splitOnChar sep s.data).map String.mk

/-- split_github_reference, implemented identically in
cli/src/plugin_cmd.rs (lines 288-302) and core/src/plugins/installer.rs
(lines 271-285): the repo is the first split('@') segment trimmed (error
when empty), the reference is the second segment trimmed when non-empty. -/
def split_github_reference (s : String) : Except String (String × Option String) :=
  match rustSplit '@' s with
  | [] => .error "github source missing repo"
  | first :: rest =>
    if (rustTrim first).data.isEmpty then .error "github source missing repo"
    else
      .ok (rustTrim first,
        match rest with
        | [] => none
        | second :: _ =>
          if (rustTrim second).data.isEmpty then none else some (rustTrim second))

/-- Rejoin of the split segments after the first one, recovering the text
to the right of the first separator occurrence. -/
def rejoinAt : List String → String
  | [] => ""
  | [x] => x
  | x :: rest => x ++ "@" ++ rejoinAt rest

/-- Modelled from the claim wording for comparison with the source: split
the input at the FIRST at-sign only, so the reference is everything to the
right of the first at-sign, trimmed, when non-empty. -/
def split_github_reference_claimed (s : String) : Except String (String × Option String) :=
  match rustSplit '@' s with
  | [] => .error "github source missing repo"
  | first :: rest =>
    if (rustTrim first).data.isEmpty then .error "github source missing repo"
    else
      .ok (rustTrim first,
        match rest with
        | [] => none
        | _ =>
          if (rustTrim (rejoinAt rest)).data.isEmpty then none
          else some (rustTrim (rejoinAt rest)))

/-- Lowercase conversion for ASCII letters, as the url crate applies to
schemes. -/
def charLower (c : Char) : Char :=
  if c.val >= 65 && c.val <= 90 then Char.ofNat (c.toNat + 32) else c

/-- Modelled from the url crate (an external dependency of plugin_cmd.rs):
Url::parse succeeds when the input has a nonempty RFC 3986 scheme before a
colon, and the parsed scheme is lowercased. -/
def urlScheme (s : String) : Option String :=
  match rustSplit ':' s with
  | scheme :: _ :: _ =>
    if scheme.data.isEmpty then none
    else if (match scheme.data with
             | c :: rest =>
               c.isAlpha &&
                 rest.all (fun x => x.isAlpha || x.isDigit || x == '+' || x == '-' || x == '.')
             | [] => false) then
      some (String.mk (scheme.data.map charLower))
    else none
  | _ => none

/-- Fuel-based model of str::trim_start_matches, which removes every
successive occurrence of the pattern. -/
def trimStartMatchesFuel (pat : String) : Nat → String → String
  | 0, s => s
  | fuel + 1, s =>
    match stripPre pat s with
    | some rest => trimStartMatchesFuel pat fuel rest
    | none => s

/-- Rust str::trim_start_matches with a string pattern. -/
def trimStartMatches (pat s : String) : String :=
  trimStartMatchesFuel pat (s.length + 1) s

/-- Tail of resolve_install_source after the github and url branches:
marketplace prefix, existing local path, bare marketplace name, then the
unrecognized-source failure. -/
def resolve_source_tail (ex : String → Bool) (source : String)
    (marketplace_path : Option String) : Except String ResolvedInstallSource :=
  if "marketplace:".data.isPrefixOf source.data then
    match marketplace_path with
    | none => .error "marketplace index not configured"
    | some p => .ok (.Marketplace p (rustTrim (trimStartMatches "marketplace:" source)))
  else if ex source then .ok (.LocalPath source)
  else
    match marketplace_path with
    | some p => .ok (.Marketplace p source)
    | none =>
      .error ("unknown plugin source: " ++ source ++
        ". Use a path, URL, github:owner/repo@ref, or --marketplace.")

/-- resolve_install_source from cli/src/plugin_cmd.rs (lines 245-286).
The filesystem existence test on the raw source string is a parameter. -/
def resolve_install_source (ex : String → Bool) (source : String)
    (marketplace_path : Option String) : Except String ResolvedInstallSource :=
  match
    (match stripPre "github:" source with
     | some rest => some rest
     | none => stripPre "gh:" source)
  with
  | some rest =>
    match split_github_reference rest with
    | .error e => .error e
    | .ok (repo, reference) => .ok (.GitHub repo reference)
  | none =>
    match urlScheme source with
    | some scheme =>
      if scheme == "http" || scheme == "https" then .ok (.Url source)
      else resolve_source_tail ex source marketplace_path
    | none => resolve_source_tail ex source marketplace_path

/-- resolve_marketplace_path from cli/src/plugin_cmd.rs (lines 304-306):
the override wins, else the default codex_home/marketplace.json is
supplied, so the result is always present. -/
def resolve_marketplace_path (codex_home : String) (override_path : Option String) :
    Option String :=
  match override_path with
  | some p => some p
  | none => some (codex_home ++ "/marketplace.json")

/-- InstalledPlugin from core/src/plugins/mod.rs. -/
structure InstalledPluginM where
  entry : PluginRegistryEntry
  manifest : PluginManifest
  root : RPath
deriving DecidableEq

/-- PluginComponentDir from core/src/plugins/mod.rs. -/
structure PluginComponentDir where
  plugin_name : String
  scope : PluginScope
  path : RPath
deriving DecidableEq

/-- One store for the consumer-facing loading path: its scope, the loaded
registry, and the per-name plugin directory together with its existence
and manifest-load outcome. -/
structure StoreM where
  scope : PluginScope
  registry : PluginRegistry
  plugin_dir : String → RPath
  rootEx : String → Bool
  manifestAt : String → Option PluginManifest

/-- load_enabled_plugins from core/src/plugins/mod.rs (lines 91-129) for a
single store: enabled entries whose directory exists and whose manifest
loads. -/
def load_enabled_plugins (store : StoreM) : List InstalledPluginM :=
  (store.registry.plugins.filter (fun e => e.enabled)).filterMap (fun e =>
    if !store.rootEx e.name then none
    else
      match store.manifestAt e.name with
      | none => none
      | some m =>
        some { entry := e, manifest := m, root := store.plugin_dir e.name })

/-- Per-plugin body of the loop in plugin_component_dirs_from_stores
(core/src/plugins/mod.rs lines 131-162): Hooks requires
policy.allow_hooks, the resolved path must be a directory except for
McpConfigs where a file is also acceptable. -/
def component_dir_for (fs : FsModel) (c : PluginComponent) (p : InstalledPluginM) :
    Option PluginComponentDir :=
  if c == PluginComponent.Hooks && !p.entry.policy.allow_hooks then none
  else
    match resolve_component_dir fs p.manifest p.root c with
    | none => none
    | some path =>
      if (if c == PluginComponent.McpConfigs then fs.isDir path || fs.isFile path
          else fs.isDir path) then
        some { plugin_name := p.entry.name, scope := p.entry.scope, path := path }
      else none

/-- Component-directory aggregation over already loaded plugins. -/
def plugin_component_dirs (fs : FsModel) (plugins : List InstalledPluginM)
    (c : PluginComponent) : List PluginComponentDir :=
  plugins.filterMap (component_dir_for fs c)

/-- plugin_component_dirs_from_stores from core/src/plugins/mod.rs. -/
def plugin_component_dirs_from_stores (fs : FsModel) (stores : List StoreM)
    (c : PluginComponent) : List PluginComponentDir :=
  plugin_component_dirs fs (stores.map load_enabled_plugins).flatten c

def c3Croot : RPath := { abs := true, comps := ["plugins", "demo"] }

def c3Path : RPath := relPath ["commands"]

def c3Fs : FsModel :=
  { ex := fun p => decide (p = c3Croot.join c3Path),
    canon := fun p =>
      if p = c3Croot.join c3Path then some (c3Croot.join c3Path)
      else if p = c3Croot then some c3Croot else none,
    isDir := fun p => decide (p = c3Croot),
    isFile := fun _ => false,
    walk := fun _ => [] }

def c3Manifest : PluginManifest := { name := "demo", commands := some c3Path }

def c10Root : RPath := { abs := true, comps := ["plugins", "demo"] }

def c10Path : RPath := relPath ["..", "evil"]

def c10Fs : FsModel :=
  { ex := fun _ => true, canon := fun p => some p, isDir := fun _ => true,
    isFile := fun _ => false, walk := fun _ => [] }

def c10Manifest : PluginManifest := { name := "demo", commands := some c10Path }

def c8Root : RPath := { abs := true, comps := ["plugins", "demo"] }

def c8Fs : FsModel :=
  { ex := fun _ => false,
    canon := fun p => if p = c8Root then some c8Root else none,
    isDir := fun p => decide (p = c8Root),
    isFile := fun _ => false,
    walk := fun _ => [] }

def c8Manifest : PluginManifest := { name := "demo" }

def c8Report : PluginComplianceReport :=
  { errors := [], warnings := ["license missing; verify compliance"],
    hooks_detected := false, scripts_detected := false }

def c1Root : RPath := { abs := true, comps := ["src", "demo"] }

def c1Fs : FsModel :=
  { ex := fun _ => false,
    canon := fun p => if p = c1Root then some c1Root else none,
    isDir := fun p => decide (p = c1Root),
    isFile := fun _ => false,
    walk := fun _ => [] }

def c1Manifest : PluginManifest := { name := "demo" }

def c1St : SysState :=
  { registryFile := none, destExists := false, storeRootExists := false }

def c1Report : PluginComplianceReport :=
  { errors := [], warnings := ["license missing; verify compliance"],
    hooks_detected := false, scripts_detected := false }

def c4Root : RPath := { abs := true, comps := ["src", "demo4"] }

def c4Fs : FsModel :=
  { ex := fun _ => false,
    canon := fun p => if p = c4Root then some c4Root else none,
    isDir := fun p => decide (p = c4Root),
    isFile := fun _ => false,
    walk := fun _ => [] }

def c4Manifest : PluginManifest := { name := "demo4" }

def c4St : SysState :=
  { registryFile := none, destExists := false, storeRootExists := false }

def c4Report : PluginComplianceReport :=
  { errors := [], warnings := ["license missing; verify compliance"],
    hooks_detected := false, scripts_detected := false }

def c7Root : RPath := { abs := true, comps := ["plugins", "demo7"] }

def c7Path : RPath := relPath ["commands"]

def c7Fs : FsModel :=
  { ex := fun p => decide (p = c7Root.join c7Path),
    canon := fun p =>
      if p = c7Root.join c7Path then some (c7Root.join c7Path)
      else if p = c7Root then some c7Root else none,
    isDir := fun p => decide (p = c7Root.join c7Path) || decide (p = c7Root),
    isFile := fun _ => false,
    walk := fun _ => [] }

def c7Plugin : InstalledPluginM :=
  { entry :=
      { name := "demo7", enabled := true, scope := .User,
        source := .LocalPath "/src/demo7",
        policy := { allow_hooks := false, allow_scripts := false },
        compliance := PluginComplianceReport.empty, runtime := none },
    manifest := { name := "demo7", commands := some c7Path },
    root := c7Root }

theorem decodeStringList_map_str (ws : List String) :
    decodeStringList (Json.arr (ws.map Json.str)) = .ok ws := by
  induction ws with
  | nil => rfl
  | cons w t ih =>
    simp only [decodeStringList, List.map_cons, List.mapM_cons] at ih ⊢
    simp only [decodeString]
    cases h : (t.map Json.str).mapM decodeString with
    | error e => rw [h] at ih; simp [Bind.bind, Except.bind, h] at ih
    | ok v =>
      rw [h] at ih
      simp only [Bind.bind, Except.bind, h, pure, Except.pure] at ih ⊢
      cases ih
      rfl

theorem decodeScope_encodeScope (s : PluginScope) :
    decodeScope (encodeScope s) = .ok s := by
  cases s <;> rfl

theorem decodeSource_encodeSource (s : PluginSource) :
    decodeSource (encodeSource s) = .ok s := by
  cases s with
  | LocalPath p => rfl
  | Url u => rfl
  | GitHub repo reference => cases reference <;> rfl
  | Marketplace name src => rfl

theorem decodePolicy_encodePolicy (p : PluginPolicy) :
    decodePolicy (encodePolicy p) = .ok p := by
  rfl

theorem decodeCompliance_encodeCompliance (c : PluginComplianceReport) :
    decodeCompliance (encodeCompliance c) = .ok c := by
  simp [decodeCompliance, encodeCompliance, optFieldD, jsonField,
    decodeStringList_map_str, decodeBool]

theorem decodeRuntime_encodeRuntime (r : PluginRuntimeSpec) :
    decodeRuntime (encodeRuntime r) = .ok r := by
  rfl

theorem decodeOptRuntime_encodeRuntime (r : PluginRuntimeSpec) :
    decodeOptRuntime (encodeRuntime r) = .ok (some r) := by
  cases r
  rfl

theorem decodeEntry_encodeEntry (e : PluginRegistryEntry) :
    decodeEntry (encodeEntry e) = .ok e := by
  cases e with
  | mk name enabled scope source policy compliance runtime =>
    cases runtime with
    | none =>
      simp [decodeEntry, encodeEntry, reqField, optFieldD, jsonField,
        decodeString, decodeBool, decodeScope_encodeScope, decodeSource_encodeSource,
        decodePolicy_encodePolicy, decodeCompliance_encodeCompliance]
    | some r =>
      simp [decodeEntry, encodeEntry, reqField, optFieldD, jsonField,
        decodeString, decodeBool, decodeScope_encodeScope, decodeSource_encodeSource,
        decodePolicy_encodePolicy, decodeCompliance_encodeCompliance,
        decodeOptRuntime_encodeRuntime]

theorem decodeEntryList_map_encodeEntry (es : List PluginRegistryEntry) :
    decodeEntryList (Json.arr (es.map encodeEntry)) = .ok es := by
  induction es with
  | nil => rfl
  | cons e t ih =>
    simp only [decodeEntryList, List.map_cons, List.mapM_cons] at ih ⊢
    rw [decodeEntry_encodeEntry e]
    cases h : (t.map encodeEntry).mapM decodeEntry with
    | error er => rw [h] at ih; simp [Bind.bind, Except.bind, h] at ih
    | ok v =>
      rw [h] at ih
      simp only [Bind.bind, Except.bind, h, pure, Except.pure] at ih ⊢
      cases ih
      rfl

theorem decodeRegistry_encodeRegistry (r : PluginRegistry)
    (hver : r.version < 4294967296) :
    decodeRegistry (encodeRegistry r) = .ok r := by
  simp [decodeRegistry, encodeRegistry, optFieldD, jsonField, decodeU32,
    if_pos hver, decodeEntryList_map_encodeEntry]

theorem registryLoad_version_lt (f : Option Json) (reg : PluginRegistry)
    (h : registryLoad f = .ok reg) : reg.version < 4294967296 := by
  cases f with
  | none =>
    simp only [registryLoad, PluginRegistry.defaultRegistry] at h
    cases h
    norm_num
  | some j =>
    simp only [registryLoad, decodeRegistry] at h
    cases j <;> simp_all
    case obj fields =>
      cases hv : optFieldD fields "version" decodeU32 1 with
      | error e => rw [hv] at h; simp at h
      | ok v =>
        rw [hv] at h
        cases hp : optFieldD fields "plugins" decodeEntryList [] with
        | error e => rw [hp] at h; simp at h
        | ok ps =>
          rw [hp] at h
          cases h
          revert hv
          unfold optFieldD
          cases jsonField fields "version" with
          | none => intro hv; cases hv; norm_num
          | some jv =>
            intro hv
            cases jv <;> simp only [decodeU32] at hv <;> try cases hv
            case num n =>
              by_cases hn : n < 4294967296
              · rw [if_pos hn] at hv; cases hv; exact hn
              · rw [if_neg hn] at hv; cases hv

theorem find_entry_append_self (plugins : List PluginRegistryEntry)
    (e : PluginRegistryEntry)
    (h : plugins.find? (fun x => x.name == e.name) = none) :
    (plugins ++ [e]).find? (fun x => x.name == e.name) = some e := by
  induction plugins with
  | nil => simp [List.find?]
  | cons a t ih =>
    simp only [List.find?_cons, List.cons_append] at h ⊢
    cases hx : (a.name == e.name) with
    | true => rw [hx] at h; simp at h
    | false => rw [hx] at h; exact ih h

theorem enclosed_name_some_eq (e : ZipEntry) (l : List String)
    (h : e.enclosed_name = some l) : l = e.nameComps := by
  unfold ZipEntry.enclosed_name at h
  split_ifs at h
  cases h
  rfl

/-- Claim C2: extraction of a zip archive into the staging directory
succeeds if and only if every entry has an enclosed (normalized) name that
stays within the staging root, no entry is a symbolic link, and every
regular-file entry has a computable parent directory; any violating entry
fails the whole extraction. -/
theorem safe_extract_zip_ok_iff (dest : List String) (entries : List ZipEntry) :
    safe_extract_zip dest entries = .ok () ↔
      ∀ e ∈ entries,
        e.enclosed_name.isSome = true ∧ is_zip_symlink e = false ∧
          (e.isDirEntry = false → (pathParent (dest ++ e.nameComps)).isSome = true) := by
  induction entries with
  | nil => simp [safe_extract_zip]
  | cons e t ih =>
    simp only [safe_extract_zip]
    cases h : e.enclosed_name with
    | none =>
      simp only [List.mem_cons]
      constructor
      · intro hc; cases hc
      · intro hall
        have := (hall e (Or.inl rfl)).1
        rw [h] at this
        cases this
    | some rel =>
      have hrel : rel = e.nameComps := enclosed_name_some_eq e rel h
      subst hrel
      cases hs : is_zip_symlink e with
      | true =>
        simp only [List.mem_cons, reduceIte]
        constructor
        · intro hc; cases hc
        · intro hall
          have := (hall e (Or.inl rfl)).2.1
          rw [hs] at this
          cases this
      | false =>
        cases hd : e.isDirEntry with
        | true =>
          simp only [Bool.false_eq_true, if_false, reduceIte]
          rw [ih]
          constructor
          · intro hall e' he'
            rcases List.mem_cons.mp he' with he' | he'
            · subst he'
              exact ⟨by rw [h]; rfl, hs, fun hcon => by rw [hd] at hcon; cases hcon⟩
            · exact hall e' he'
          · intro hall e' he'
            exact hall e' (List.mem_cons_of_mem e he')
        | false =>
          simp only [Bool.false_eq_true, if_false, reduceIte]
          cases hp : pathParent (dest ++ e.nameComps) with
          | none =>
            constructor
            · intro hc; cases hc
            · intro hall
              have := (hall e (List.mem_cons_self e t)).2.2 hd
              rw [hp] at this
              cases this
          | some par =>
            simp only []
            rw [ih]
            constructor
            · intro hall e' he'
              rcases List.mem_cons.mp he' with he' | he'
              · subst he'
                exact ⟨by rw [h]; rfl, hs, fun _ => by rw [hp]; rfl⟩
              · exact hall e' he'
            · intro hall e' he'
              exact hall e' (List.mem_cons_of_mem e he')

theorem safe_extract_zip_ok_iff_witness :
    safe_extract_zip ["tmp", "stage"]
      [{ nameComps := ["plugin.json"], isAbs := false, unixMode := some 0o100644,
         isDirEntry := false },
       { nameComps := ["hooks"], isAbs := false, unixMode := none, isDirEntry := true }]
      = .ok () :=
  (safe_extract_zip_ok_iff ["tmp", "stage"]
    [{ nameComps := ["plugin.json"], isAbs := false, unixMode := some 0o100644,
       isDirEntry := false },
     { nameComps := ["hooks"], isAbs := false, unixMode := none, isDirEntry := true }]).mpr
    (by decide)

/-- Claim C3: for a component path P declared in the manifest, the
Validator produces no error for P if and only if P is relative, contains
no parent-directory segment, exists under the root, and canonicalizes to a
descendant of the canonical plugin root; each violation pushes exactly the
corresponding error message. -/
theorem component_check_declared_spec (fs : FsModel) (croot : RPath)
    (m : PluginManifest) (c : PluginComponent) (P : RPath)
    (hdecl : m.component_path c = some P) :
    (component_check fs croot m c = .ok [] ↔
      (P.abs = false ∧ P.hasParentDir = false ∧ fs.ex (croot.join P) = true ∧
        ∃ cc, fs.canon (croot.join P) = some cc ∧ cc.startsWith croot = true))
    ∧ (P.abs = true →
        component_check fs croot m c = .ok ["path is absolute: " ++ P.display])
    ∧ (P.abs = false → P.hasParentDir = true →
        component_check fs croot m c = .ok ["path escapes plugin root: " ++ P.display])
    ∧ (P.abs = false → P.hasParentDir = false → fs.ex (croot.join P) = false →
        component_check fs croot m c = .ok ["component path missing: " ++ P.display])
    ∧ (∀ cc, P.abs = false → P.hasParentDir = false → fs.ex (croot.join P) = true →
        fs.canon (croot.join P) = some cc → cc.startsWith croot = false →
        component_check fs croot m c = .ok ["path escapes plugin root: " ++ P.display]) := by
  unfold component_check
  rw [hdecl]
  refine ⟨?_, ?_, ?_, ?_, ?_⟩
  · cases hab : P.abs with
    | true => simp [hab]
    | false =>
      cases hpd : P.hasParentDir with
      | true => simp [hab, hpd]
      | false =>
        cases hex : fs.ex (croot.join P) with
        | false => simp [hab, hpd, hex]
        | true =>
          cases hc : fs.canon (croot.join P) with
          | none => simp [hab, hpd, hex, hc]
          | some cc =>
            cases hsw : cc.startsWith croot with
            | false => simp [hab, hpd, hex, hc, hsw]
            | true => simp [hab, hpd, hex, hc, hsw]
  · intro hab; simp [hab]
  · intro hab hpd; simp [hab, hpd]
  · intro hab hpd hex; simp [hab, hpd, hex]
  · intro cc hab hpd hex hc hsw; simp [hab, hpd, hex, hc, hsw]

/-- Claim C10: when the manifest declares a component path that is
absolute, contains a parent-directory segment, does not exist under the
root, or does not canonicalize inside the canonical root,
resolve_component_dir returns None for that component, with no fallback to
the conventional directory name: the component is silently hidden. -/
theorem resolve_component_dir_declared_none (fs : FsModel) (m : PluginManifest)
    (root : RPath) (c : PluginComponent) (P : RPath)
    (hdecl : m.component_path c = some P)
    (hbad : P.abs = true ∨ P.hasParentDir = true ∨ fs.ex (root.join P) = false ∨
      (∀ cr cc, fs.canon root = some cr → fs.canon (root.join P) = some cc →
        cc.startsWith cr = false)) :
    resolve_component_dir fs m root c = none := by
  unfold resolve_component_dir
  rw [hdecl]
  rcases hbad with h | h | h | h
  · simp [h]
  · simp [h]
  · cases hab : P.abs with
    | true => simp [hab]
    | false =>
      cases hpd : P.hasParentDir with
      | true => simp [hab, hpd]
      | false => simp [hab, hpd, h]
  · cases hab : P.abs with
    | true => simp [hab]
    | false =>
      cases hpd : P.hasParentDir with
      | true => simp [hab, hpd]
      | false =>
        cases hex : fs.ex (root.join P) with
        | false => simp [hab, hpd, hex]
        | true =>
          cases hcr : fs.canon root with
          | none => simp [hab, hpd, hex, hcr]
          | some cr =>
            cases hcc : fs.canon (root.join P) with
            | none => simp [hab, hpd, hex, hcr, hcc]
            | some cc => simp [hab, hpd, hex, hcr, hcc, h cr cc hcr hcc]

theorem component_check_declared_spec_witness :
    component_check c3Fs c3Croot c3Manifest .Commands = .ok [] :=
  (component_check_declared_spec c3Fs c3Croot c3Manifest .Commands c3Path rfl).1.mpr
    ⟨rfl, by decide, by decide, ⟨c3Croot.join c3Path, by decide, by decide⟩⟩

theorem resolve_component_dir_declared_none_witness :
    resolve_component_dir c10Fs c10Manifest c10Root .Commands = none :=
  resolve_component_dir_declared_none c10Fs c10Manifest c10Root .Commands c10Path rfl
    (Or.inr (Or.inl (by decide)))

/-- Claim C8: for every plugin that validates without errors, the warnings
of the compliance report are determined exclusively: if hooks or scripts
are detected the single warning about required policy is pushed; otherwise
the license-missing warning is pushed exactly when the manifest has no
license; the two warnings never appear together. -/
theorem validate_warnings_exclusive (fs : FsModel) (root : RPath)
    (m : PluginManifest) (r : PluginComplianceReport)
    (hok : validate fs root m = .ok r) (herr : r.errors = []) :
    ((r.hooks_detected = true ∨ r.scripts_detected = true) →
      r.warnings = ["hooks/scripts detected; policy required"])
    ∧ (r.hooks_detected = false → r.scripts_detected = false →
        (r.warnings = ["license missing; verify compliance"] ↔ m.license = none))
    ∧ ¬(("hooks/scripts detected; policy required" ∈ r.warnings) ∧
        ("license missing; verify compliance" ∈ r.warnings)) := by
  unfold validate at hok
  cases hc : fs.canon root with
  | none => rw [hc] at hok; cases hok
  | some croot =>
    rw [hc] at hok
    dsimp only at hok
    cases hdir : fs.isDir croot with
    | false =>
      rw [hdir] at hok
      simp only [Bool.not_false, reduceIte] at hok
      injection hok with h
      rw [← h] at herr
      cases herr
    | true =>
      rw [hdir] at hok
      simp only [Bool.not_true, Bool.false_eq_true, if_false] at hok
      cases hcomp : collect_component_errors fs croot m componentsOrder with
      | error e => rw [hcomp] at hok; cases hok
      | ok compErrs =>
        rw [hcomp] at hok
        injection hok with h
        subst h
        dsimp only
        unfold validator_warnings
        refine ⟨?_, ?_, ?_⟩
        · intro hd
          rcases hd with hd | hd
          · simp [hd]
          · simp [hd]
        · intro hhd hsd
          rw [hhd, hsd]
          simp only [Bool.or_false, Bool.false_eq_true, if_false]
          cases hlic : m.license with
          | none => simp
          | some lic => simp
        · intro hcontra
          rcases hcontra with ⟨h1, h2⟩
          by_cases hb : (hooks_detected_check fs m croot || scripts_detected_check fs croot) = true
          · rw [if_pos hb] at h2
            simp at h2
          · rw [if_neg hb] at h1
            by_cases hlic : m.license.isNone = true
            · rw [if_pos hlic] at h1; simp at h1
            · rw [if_neg hlic] at h1; simp at h1

theorem validate_warnings_exclusive_witness :
    c8Report.warnings = ["license missing; verify compliance"] :=
  ((validate_warnings_exclusive c8Fs c8Root c8Manifest c8Report (by rfl) rfl).2.1
    rfl rfl).mpr rfl

/-- Claim C1, amended: in install_from_root, a failure of the copy into
dest_root removes dest_root and leaves the registry file unchanged, and
the registry file is updated only after the copy has completed
successfully; however the rollback guard is disarmed before the registry
save, so a save failure leaves dest_root in place (with the registry still
unchanged). -/
theorem install_rollback_spec (scope : PluginScope) (src : PluginSource)
    (manifestLoad : Except String PluginManifest) (srcFs : FsModel) (srcRoot : RPath)
    (copyOk saveOk : Bool) (st : SysState) (m : PluginManifest)
    (rep : PluginComplianceReport) (reg : PluginRegistry)
    (hm : manifestLoad = .ok m)
    (hv : validate srcFs srcRoot m = .ok rep)
    (he : rep.errors = [])
    (hd : st.destExists = false)
    (hr : registryLoad st.registryFile = .ok reg)
    (hf : reg.find_entry m.name = none) :
    (copyOk = false →
      (install_from_root scope src manifestLoad srcFs srcRoot copyOk saveOk st).1.destExists
          = false ∧
        (install_from_root scope src manifestLoad srcFs srcRoot copyOk saveOk st).1.registryFile
          = st.registryFile ∧
        exceptOk (install_from_root scope src manifestLoad srcFs srcRoot copyOk saveOk st).2
          = false)
    ∧ (copyOk = true → saveOk = false →
      (install_from_root scope src manifestLoad srcFs srcRoot copyOk saveOk st).1.destExists
          = true ∧
        (install_from_root scope src manifestLoad srcFs srcRoot copyOk saveOk st).1.registryFile
          = st.registryFile ∧
        exceptOk (install_from_root scope src manifestLoad srcFs srcRoot copyOk saveOk st).2
          = false)
    ∧ ((install_from_root scope src manifestLoad srcFs srcRoot copyOk saveOk st).1.registryFile
          ≠ st.registryFile →
        copyOk = true ∧ saveOk = true) := by
  unfold install_from_root
  rw [hm]
  dsimp only
  rw [hv]
  dsimp only
  rw [he, hd, hr]
  dsimp only
  rw [hf]
  simp only [List.isEmpty_nil, Bool.not_true, Bool.false_eq_true, if_false,
    Option.isSome_none]
  cases copyOk with
  | false => simp [exceptOk]
  | true =>
    cases saveOk with
    | false => simp [exceptOk]
    | true => simp [exceptOk]

/-- Claim C4: a successful install appends a registry entry with
enabled = true, the store scope, the resolver-captured source, the default
policy (both capabilities false), a compliance report with empty errors
and the validator warnings and detection flags, and no runtime; reloading
the registry from disk afterwards yields an entry equal to the returned
outcome entry. -/
theorem install_entry_roundtrip (scope : PluginScope) (src : PluginSource)
    (manifestLoad : Except String PluginManifest) (srcFs : FsModel) (srcRoot : RPath)
    (st : SysState) (m : PluginManifest)
    (rep : PluginComplianceReport) (reg : PluginRegistry)
    (hm : manifestLoad = .ok m)
    (hv : validate srcFs srcRoot m = .ok rep)
    (he : rep.errors = [])
    (hd : st.destExists = false)
    (hr : registryLoad st.registryFile = .ok reg)
    (hf : reg.find_entry m.name = none) :
    ∃ st2 outcome,
      install_from_root scope src manifestLoad srcFs srcRoot true true st = (st2, .ok outcome)
      ∧ outcome.entry =
          { name := m.name, enabled := true, scope := scope, source := src,
            policy := { allow_hooks := false, allow_scripts := false },
            compliance :=
              { errors := [], warnings := rep.warnings,
                hooks_detected := rep.hooks_detected,
                scripts_detected := rep.scripts_detected },
            runtime := none }
      ∧ ∃ reg2, registryLoad st2.registryFile = .ok reg2
          ∧ reg2.find_entry m.name = some outcome.entry := by
  have hlt : reg.version < 4294967296 := registryLoad_version_lt st.registryFile reg hr
  unfold install_from_root
  rw [hm]
  dsimp only
  rw [hv]
  dsimp only
  rw [he, hd, hr]
  dsimp only
  rw [hf]
  simp only [List.isEmpty_nil, Bool.not_true, Bool.false_eq_true, if_false,
    Option.isSome_none, Bool.not_true]
  refine ⟨_, _, rfl, rfl, ?_⟩
  refine ⟨{ version := reg.version,
            plugins := reg.plugins ++
              [{ name := m.name, enabled := true, scope := scope, source := src,
                 policy := PluginPolicy.default,
                 compliance :=
                   { errors := [], warnings := rep.warnings,
                     hooks_detected := rep.hooks_detected,
                     scripts_detected := rep.scripts_detected },
                 runtime := none }] }, ?_, ?_⟩
  · exact decodeRegistry_encodeRegistry _ hlt
  · exact find_entry_append_self reg.plugins
      { name := m.name, enabled := true, scope := scope, source := src,
        policy := PluginPolicy.default,
        compliance :=
          { errors := [], warnings := rep.warnings,
            hooks_detected := rep.hooks_detected,
            scripts_detected := rep.scripts_detected },
        runtime := none } hf

/-- Claim C1 counterexample: a concrete install in which every step
succeeds except the registry save ends in an error, yet the destination
directory still exists afterwards, so residue remains at dest_root after a
failure that happened after dest_root was created. -/
theorem install_save_failure_residue :
    exceptOk (install_from_root .User (.LocalPath "/src/demo") (.ok c1Manifest)
        c1Fs c1Root true false c1St).2 = false
    ∧ (install_from_root .User (.LocalPath "/src/demo") (.ok c1Manifest)
        c1Fs c1Root true false c1St).1.destExists = true :=
  ⟨rfl, rfl⟩

theorem install_rollback_spec_witness :
    (install_from_root .User (.LocalPath "/src/demo") (.ok c1Manifest)
        c1Fs c1Root false true c1St).1.destExists = false :=
  ((install_rollback_spec .User (.LocalPath "/src/demo") (.ok c1Manifest) c1Fs c1Root
      false true c1St c1Manifest c1Report PluginRegistry.defaultRegistry
      rfl rfl rfl rfl rfl rfl).1 rfl).1

theorem install_entry_roundtrip_witness :
    ∃ st2 outcome,
      install_from_root .User (.LocalPath "/src/demo4") (.ok c4Manifest)
          c4Fs c4Root true true c4St = (st2, .ok outcome)
      ∧ outcome.entry =
          { name := c4Manifest.name, enabled := true, scope := .User,
            source := .LocalPath "/src/demo4",
            policy := { allow_hooks := false, allow_scripts := false },
            compliance :=
              { errors := [], warnings := c4Report.warnings,
                hooks_detected := c4Report.hooks_detected,
                scripts_detected := c4Report.scripts_detected },
            runtime := none }
      ∧ ∃ reg2, registryLoad st2.registryFile = .ok reg2
          ∧ reg2.find_entry c4Manifest.name = some outcome.entry :=
  install_entry_roundtrip .User (.LocalPath "/src/demo4") (.ok c4Manifest) c4Fs c4Root
    c4St c4Manifest c4Report PluginRegistry.defaultRegistry rfl rfl rfl rfl rfl rfl

/-- Claim C5 counterexample: the registry decoder accepts a document whose
version field is 2 and returns it unchanged, so the implementation does
not accept version 1 only. -/
theorem registry_accepts_version_two :
    decodeRegistry (Json.obj [("version", Json.num 2), ("plugins", Json.arr [])])
      = .ok { version := 2, plugins := [] } := rfl

/-- Claim C5, amended: load returns the default empty version-1 registry
when the file is absent, treats a missing version field as 1, accepts any
u32 version value without a version check, and fails on malformed data. -/
theorem registry_load_spec :
    registryLoad none = .ok { version := 1, plugins := [] }
    ∧ decodeRegistry (Json.obj [("plugins", Json.arr [])])
        = .ok { version := 1, plugins := [] }
    ∧ (∀ v, v < 4294967296 →
        decodeRegistry (Json.obj [("version", Json.num v), ("plugins", Json.arr [])])
          = .ok { version := v, plugins := [] })
    ∧ decodeRegistry (Json.str "not an object") = .error "expected object" := by
  refine ⟨rfl, rfl, ?_, rfl⟩
  intro v hv
  have h1 : decodeRegistry (Json.obj [("version", Json.num v), ("plugins", Json.arr [])])
      = match (if v < 4294967296 then (Except.ok v : Except String Nat)
               else .error "number out of range") with
        | .error e => .error e
        | .ok version => .ok { version := version, plugins := [] } := rfl
  rw [h1, if_pos hv]

theorem registry_load_spec_witness :
    decodeRegistry (Json.obj [("version", Json.num 7), ("plugins", Json.arr [])])
      = .ok { version := 7, plugins := [] } :=
  registry_load_spec.2.2.1 7 (by norm_num)

/-- Claim C6 counterexample: on a source with two at-signs the code takes
only the segment between the first and second at-sign as the reference,
while splitting at the first at-sign as the claim describes would keep
everything to its right. -/
theorem split_github_reference_multi_at :
    split_github_reference "owner/repo@v1@extra" = .ok ("owner/repo", some "v1")
    ∧ split_github_reference_claimed "owner/repo@v1@extra"
        = .ok ("owner/repo", some "v1@extra")
    ∧ (some "v1" : Option String) ≠ some "v1@extra" :=
  ⟨rfl, rfl, by decide⟩

/-- Claim C6, amended: github shorthand resolution trims the first
split('@') segment as the repo (failing when it is empty) and the segment
between the first and second at-sign as the reference; this agrees with
the claimed split-at-first-at-sign reading whenever the source contains at
most one at-sign. -/
theorem split_github_reference_single_at (s : String)
    (h : (rustSplit '@' s).length ≤ 2) :
    split_github_reference s = split_github_reference_claimed s := by
  unfold split_github_reference split_github_reference_claimed
  rcases hs : rustSplit '@' s with _ | ⟨a, _ | ⟨b, _ | ⟨c, rest⟩⟩⟩
  · rfl
  · rfl
  · rfl
  · rw [hs] at h
    simp at h

theorem split_github_reference_single_at_witness :
    split_github_reference "owner/repo@v1"
      = split_github_reference_claimed "owner/repo@v1" :=
  split_github_reference_single_at "owner/repo@v1" (by decide)

/-- Claim C9 counterexample: with a marketplace index path supplied, the
empty source string resolves successfully to a marketplace request with an
empty name instead of failing; and resolve_marketplace_path always
supplies such a path in the CLI flow. -/
theorem resolve_empty_source_with_default_marketplace :
    resolve_install_source (fun _ => false) ""
        (some "/home/user/.codex/marketplace.json")
      = .ok (.Marketplace "/home/user/.codex/marketplace.json" "")
    ∧ resolve_marketplace_path "/home/user/.codex" none
        = some "/home/user/.codex/marketplace.json" :=
  ⟨rfl, rfl⟩

/-- Claim C9, amended: resolving the empty source string fails with the
unrecognized-source error only when no marketplace index path is present;
with a marketplace path it resolves to a marketplace request with empty
name, and resolve_marketplace_path always returns a path. -/
theorem resolve_empty_source_spec (ex : String → Bool) (hex : ex "" = false) :
    resolve_install_source ex "" none
      = .error
          "unknown plugin source: . Use a path, URL, github:owner/repo@ref, or --marketplace."
    ∧ (∀ mp, resolve_install_source ex "" (some mp) = .ok (.Marketplace mp ""))
    ∧ (∀ home op, (resolve_marketplace_path home op).isSome = true) := by
  refine ⟨?_, ?_, ?_⟩
  · have hstep : resolve_install_source ex "" none
        = if ex "" = true then .ok (ResolvedInstallSource.LocalPath "")
          else .error
            "unknown plugin source: . Use a path, URL, github:owner/repo@ref, or --marketplace." :=
      rfl
    rw [hstep, hex]
    simp
  · intro mp
    have hstep : resolve_install_source ex "" (some mp)
        = if ex "" = true then .ok (ResolvedInstallSource.LocalPath "")
          else .ok (.Marketplace mp "") := rfl
    rw [hstep, hex]
    simp
  · intro home op
    cases op <;> rfl

theorem resolve_empty_source_spec_witness :
    resolve_install_source (fun _ => false) "" (some "/mp/index.json")
      = .ok (.Marketplace "/mp/index.json" "") :=
  (resolve_empty_source_spec (fun _ => false) rfl).2.1 "/mp/index.json"

theorem component_dir_for_eq_some_iff (fs : FsModel) (c : PluginComponent)
    (p : InstalledPluginM) (d : PluginComponentDir) :
    component_dir_for fs c p = some d ↔
      ((c = PluginComponent.Hooks → p.entry.policy.allow_hooks = true) ∧
        ∃ path, resolve_component_dir fs p.manifest p.root c = some path ∧
          (if c = PluginComponent.McpConfigs then fs.isDir path || fs.isFile path
           else fs.isDir path) = true ∧
          d = { plugin_name := p.entry.name, scope := p.entry.scope, path := path }) := by
  unfold component_dir_for
  by_cases hH : c = PluginComponent.Hooks
  · subst hH
    cases hA : p.entry.policy.allow_hooks with
    | false =>
      simp only [hA, beq_self_eq_true, Bool.not_false, Bool.and_true, reduceIte]
      simp [hA]
    | true =>
      simp only [hA, beq_self_eq_true, Bool.not_true, Bool.and_false, Bool.false_eq_true,
        if_false]
      cases hres : resolve_component_dir fs p.manifest p.root PluginComponent.Hooks with
      | none => simp [hres]
      | some path =>
        simp only [hres]
        by_cases hv : (if (PluginComponent.Hooks == PluginComponent.McpConfigs) = true
            then fs.isDir path || fs.isFile path else fs.isDir path) = true
        · rw [if_pos hv]
          simp only [Option.some.injEq]
          constructor
          · intro hd
            subst hd
            refine ⟨by simp [hA], path, rfl, ?_, rfl⟩
            simpa using hv
          · rintro ⟨_, path2, hp2, hv2, hd2⟩
            cases hp2
            rw [hd2]
        · rw [if_neg hv]
          constructor
          · intro hcon; cases hcon
          · rintro ⟨_, path2, hp2, hv2, hd2⟩
            cases hp2
            exact absurd (by simpa using hv2) hv
  · have hHb : (c == PluginComponent.Hooks) = false := by
      simp [hH]
    simp only [hHb, Bool.false_and, Bool.false_eq_true, if_false]
    cases hres : resolve_component_dir fs p.manifest p.root c with
    | none => simp [hres, hH]
    | some path =>
      simp only [hres]
      by_cases hv : (if (c == PluginComponent.McpConfigs) = true
          then fs.isDir path || fs.isFile path else fs.isDir path) = true
      · rw [if_pos hv]
        simp only [Option.some.injEq]
        constructor
        · intro hd
          subst hd
          refine ⟨fun hcon => absurd hcon hH, path, rfl, ?_, rfl⟩
          by_cases hM : c = PluginComponent.McpConfigs
          · subst hM; simpa using hv
          · rw [if_neg hM]
            have : (c == PluginComponent.McpConfigs) = false := by simp [hM]
            rw [this] at hv
            simpa using hv
        · rintro ⟨_, path2, hp2, hv2, hd2⟩
          cases hp2
          rw [hd2]
      · rw [if_neg hv]
        constructor
        · intro hcon; cases hcon
        · rintro ⟨_, path2, hp2, hv2, hd2⟩
          cases hp2
          refine absurd ?_ hv
          by_cases hM : c = PluginComponent.McpConfigs
          · subst hM; simpa using hv2
          · have hMb : (c == PluginComponent.McpConfigs) = false := by simp [hM]
            rw [hMb]
            rw [if_neg hM] at hv2
            simpa using hv2

/-- Claim C7: a component directory is produced for an enabled installed
plugin exactly when resolution succeeds and, for Hooks, the entry policy
has allow_hooks set (otherwise the component is hidden); the resolved path
may be a file or a directory for McpConfigs, and must be a directory for
every other component. -/
theorem plugin_component_dirs_mem_iff (fs : FsModel) (plugins : List InstalledPluginM)
    (c : PluginComponent) (d : PluginComponentDir) :
    d ∈ plugin_component_dirs fs plugins c ↔
      ∃ p ∈ plugins,
        (c = PluginComponent.Hooks → p.entry.policy.allow_hooks = true) ∧
        ∃ path, resolve_component_dir fs p.manifest p.root c = some path ∧
          (if c = PluginComponent.McpConfigs then fs.isDir path || fs.isFile path
           else fs.isDir path) = true ∧
          d = { plugin_name := p.entry.name, scope := p.entry.scope, path := path } := by
  unfold plugin_component_dirs
  rw [List.mem_filterMap]
  constructor
  · rintro ⟨p, hp, hf⟩
    exact ⟨p, hp, (component_dir_for_eq_some_iff fs c p d).mp hf⟩
  · rintro ⟨p, hp, hrest⟩
    exact ⟨p, hp, (component_dir_for_eq_some_iff fs c p d).mpr hrest⟩

theorem plugin_component_dirs_mem_iff_witness :
    ({ plugin_name := "demo7", scope := PluginScope.User,
       path := c7Root.join c7Path } : PluginComponentDir)
      ∈ plugin_component_dirs c7Fs [c7Plugin] .Commands :=
  (plugin_component_dirs_mem_iff c7Fs [c7Plugin] .Commands _).mpr
    ⟨c7Plugin, by simp, by simp, c7Root.join c7Path, rfl, rfl, rfl⟩
